import Mathlib

/-!
Shallow embedding of `src/pygame/detect.py` (taboopython/examples-camera).

The pipeline's core pieces modelled here:

* `load_labels` (detect.py lines 32-36): parses a label file with the regex
  pattern `\s*(\d+)(.+)` via `re.match`; a non-matching line makes
  `p.match(line)` return `None`, so calling `.groups()` on it raises
  `AttributeError`; the dict comprehension `{int(num): text.strip() ...}`
  lets later duplicate ids overwrite earlier ones.
* `get_output` (detect.py lines 73-90): reads the four output tensors
  (boxes, class_ids, scores, count), then evaluates the comprehension
  `[make(i) for i in range(count) if scores[i] >= score_threshold]`,
  where `make(i)` unpacks `ymin, xmin, ymax, xmax = boxes[i]` and builds an
  `Object` with each bbox edge clamped on one side only:
  `xmin = np.maximum(0.0, xmin)`, `ymin = np.maximum(0.0, ymin)`,
  `xmax = np.minimum(1.0, xmax)`, `ymax = np.minimum(1.0, ymax)`.
* the per-frame annotation of `main` (detect.py lines 141, 147-155):
  `results = get_output(interpreter, score_threshold=args.threshold)` and
  for each result the label string
  `"%.0f%% %s" % (100*result.score, labels.get(result.id, result.id))`.

Floats are modelled as rationals plus an explicit NaN constructor
(`PyFloat`); IEEE comparisons with NaN are false and `np.maximum` /
`np.minimum` propagate NaN, which the model mirrors.  Infinities and
rounding error are outside the model.  Python runtime errors
(`IndexError` from a numpy out-of-range read, `ValueError` from
`int(nan)`, `AttributeError` from `None.groups()`) are modelled with an
explicit error type and `Except`; the type also carries the spec-side
error names `malformedOutput` and `parseError` so that claims about them
can be stated, though the source never produces them.
-/

namespace Detect

/-- Errors.  `indexError`, `valueError` and `attributeError` are the Python
exceptions the source can actually raise; `malformedOutput` and
`parseError` are the error kinds named by the specification (the source
has no code producing them, they exist so claims about them can be
stated and refuted). -/
inductive PyError where
  | indexError
  | valueError
  | attributeError
  | malformedOutput
  | parseError (line : String)
deriving DecidableEq, Repr

/-- A Python/numpy float, modelled as a rational or NaN. -/
inductive PyFloat where
  | nan
  | val (q : ℚ)
deriving DecidableEq, Repr

/-- IEEE `>=`: any comparison with NaN is false (Python/numpy semantics of
`scores[i] >= score_threshold`). -/
def PyFloat.ge : PyFloat → PyFloat → Bool
  | PyFloat.val a, PyFloat.val b => a ≥ b
  | _, _ => false

/-- `np.maximum`: propagates NaN (if either argument is NaN the result is
NaN), otherwise the larger value. -/
def npMaximum : PyFloat → PyFloat → PyFloat
  | PyFloat.val a, PyFloat.val b => PyFloat.val (max a b)
  | _, _ => PyFloat.nan

/-- `np.minimum`: propagates NaN, otherwise the smaller value. -/
def npMinimum : PyFloat → PyFloat → PyFloat
  | PyFloat.val a, PyFloat.val b => PyFloat.val (min a b)
  | _, _ => PyFloat.nan

/-- Truncation toward zero, as Python's `int()` applied to a float. -/
def ratTrunc (q : ℚ) : Int :=
  if 0 ≤ q then Rat.floor q else -Rat.floor (-q)

/-- Python `int(x)` on a float: truncates toward zero; `int(nan)` raises
`ValueError`. -/
def pyInt : PyFloat → Except PyError Int
  | PyFloat.nan => Except.error PyError.valueError
  | PyFloat.val q => Except.ok (ratTrunc q)

/-- numpy 1-D indexing `xs[i]`: out-of-range raises `IndexError`. -/
def listGet {α : Type} (xs : List α) (i : Nat) : Except PyError α :=
  match xs.get? i with
  | some x => Except.ok x
  | none => Except.error PyError.indexError

/-- `BBox` namedtuple of detect.py line 66. -/
structure BBox where
  xmin : PyFloat
  ymin : PyFloat
  xmax : PyFloat
  ymax : PyFloat
deriving DecidableEq, Repr

/-- `Object` namedtuple of detect.py line 30. -/
structure Object where
  id : Int
  score : PyFloat
  bbox : BBox
deriving DecidableEq, Repr

/-- The four output tensors read by `get_output` (detect.py lines 75-78):
`boxes` rows are `(ymin, xmin, ymax, xmax)`; `count` is the raw scalar
float before the `int()` conversion. -/
structure RawOutputs where
  boxes : List (PyFloat × PyFloat × PyFloat × PyFloat)
  class_ids : List PyFloat
  scores : List PyFloat
  count : PyFloat
deriving DecidableEq, Repr

/-- `make(i)` of detect.py lines 80-88: unpack `ymin, xmin, ymax, xmax =
boxes[i]`, then build `Object(id=int(class_ids[i]), score=scores[i],
bbox=BBox(xmin=np.maximum(0.0, xmin), ymin=np.maximum(0.0, ymin),
xmax=np.minimum(1.0, xmax), ymax=np.minimum(1.0, ymax)))`. -/
def make (raw : RawOutputs) (i : Nat) : Except PyError Object :=
  match listGet raw.boxes i with
  | Except.error e => Except.error e
  | Except.ok (ymin, xmin, ymax, xmax) =>
    match listGet raw.class_ids i with
    | Except.error e => Except.error e
    | Except.ok cid =>
      match pyInt cid with
      | Except.error e => Except.error e
      | Except.ok idv =>
        match listGet raw.scores i with
        | Except.error e => Except.error e
        | Except.ok s =>
          Except.ok
            { id := idv
              score := s
              bbox :=
                { xmin := npMaximum (PyFloat.val 0) xmin
                  ymin := npMaximum (PyFloat.val 0) ymin
                  xmax := npMinimum (PyFloat.val 1) xmax
                  ymax := npMinimum (PyFloat.val 1) ymax } }

/-- The list comprehension of detect.py line 90, iterating a given index
list left to right: for each `i`, evaluate `scores[i] >= score_threshold`
(an out-of-range read raises), and when true evaluate `make(i)` and append
its result. -/
def getOutputAux (raw : RawOutputs) (t : PyFloat) : List Nat → Except PyError (List Object)
  | [] => Except.ok []
  | i :: rest =>
    match listGet raw.scores i with
    | Except.error e => Except.error e
    | Except.ok s =>
      if PyFloat.ge s t then
        match make raw i with
        | Except.error e => Except.error e
        | Except.ok o =>
          match getOutputAux raw t rest with
          | Except.error e => Except.error e
          | Except.ok os => Except.ok (o :: os)
      else getOutputAux raw t rest

/-- `get_output(interpreter, score_threshold)` of detect.py lines 73-90:
`count = int(output_tensor(interpreter, 3))`, then
`[make(i) for i in range(count) if scores[i] >= score_threshold]`.
A negative count gives an empty range, as in Python. -/
def get_output (raw : RawOutputs) (score_threshold : PyFloat) : Except PyError (List Object) :=
  match pyInt raw.count with
  | Except.error e => Except.error e
  | Except.ok c => getOutputAux raw score_threshold (List.range c.toNat)

/-! ### Predicates and specification-side views of the decoder -/

/-- A coordinate lies within the unit interval [0,1] (false for NaN). -/
def inUnit : PyFloat → Bool
  | PyFloat.nan => false
  | PyFloat.val q => decide (0 ≤ q ∧ q ≤ 1)

/-- A min-edge coordinate after the one-sided clamp `np.maximum(0.0, ·)`:
at least 0, except that a NaN raw coordinate stays NaN. -/
def lowClamped : PyFloat → Bool
  | PyFloat.nan => true
  | PyFloat.val q => decide (0 ≤ q)

/-- A max-edge coordinate after the one-sided clamp `np.minimum(1.0, ·)`:
at most 1, except that a NaN raw coordinate stays NaN. -/
def highClamped : PyFloat → Bool
  | PyFloat.nan => true
  | PyFloat.val q => decide (q ≤ 1)

/-- The comprehension's filter condition at index `i`:
`scores[i] >= score_threshold` (false when the read is out of range,
though the real read would raise — `getOutputAux` models the raise). -/
def passes (raw : RawOutputs) (t : PyFloat) (i : Nat) : Bool :=
  match raw.scores.get? i with
  | some s => PyFloat.ge s t
  | none => false

/-- The indices `0 ≤ i < n` whose score passes the threshold, in engine
order. -/
def selectedIdxs (raw : RawOutputs) (t : PyFloat) (n : Nat) : List Nat :=
  (List.range n).filter (passes raw t)

/-- Apply `make` to every index of a list, succeeding only if every
application does. -/
def makeAll (raw : RawOutputs) : List Nat → Option (List Object)
  | [] => some []
  | i :: rest =>
    match make raw i, makeAll raw rest with
    | Except.ok o, some os => some (o :: os)
    | _, _ => none

/-! ### Label loading (`load_labels`, detect.py lines 32-36)

A label file is modelled as the list of its lines (the result of
`f.readlines()`), each line a list of characters.  The compiled pattern
`\s*(\d+)(.+)` is embedded as the specialised matcher `pMatch` below (the
character classes are modelled over ASCII: `\s` is whitespace, `\d` a
decimal digit, `.` anything but a newline; matching is greedy with
backtracking and anchored at the start only, as `re.match` is). -/

/-- Python `\s` (ASCII range): space, tab, newline, carriage return,
vertical tab, form feed. -/
def isSpaceCh (c : Char) : Bool :=
  c = ' ' || c = '\t' || c = '\n' || c = '\r' || c = Char.ofNat 11 || c = Char.ofNat 12

/-- Python `\d` (ASCII range). -/
def isDigitCh (c : Char) : Bool :=
  '0' ≤ c && c ≤ '9'

/-- `p.match(line)` for `p = re.compile(r'\s*(\d+)(.+)')`, returning the
two captured groups or `none` when the line does not match.  Greedy
matching with backtracking: `\s*` takes the whole leading whitespace run
(a shorter run would leave a whitespace character where `\d+` needs a
digit), `\d+` takes the whole digit run, and `.+` needs one following
character that is not a newline; when none follows, `\d+` gives back its
last digit to `.+` provided at least two digits were matched. -/
def pMatch (line : List Char) : Option (List Char × List Char) :=
  let rest := line.dropWhile isSpaceCh
  let ds := rest.takeWhile isDigitCh
  let after := rest.drop ds.length
  if ds.isEmpty then none
  else
    let text := after.takeWhile (fun c => c ≠ '\n')
    if text.isEmpty then
      if 2 ≤ ds.length then
        some (ds.take (ds.length - 1), ds.drop (ds.length - 1))
      else none
    else some (ds, text)

/-- Python `int()` on the digits captured by `(\d+)` (always nonnegative,
never empty). -/
def digitsToNat (ds : List Char) : Nat :=
  ds.foldl (fun n c => 10 * n + (c.toNat - Char.toNat '0')) 0

/-- Python `str.strip()` (ASCII whitespace): drop leading and trailing
whitespace. -/
def pyStrip (cs : List Char) : List Char :=
  ((cs.dropWhile isSpaceCh).reverse.dropWhile isSpaceCh).reverse

/-- Python dict lookup on the insertion-ordered association list: the
value stored for `k`, or `none` when `k` is absent. -/
def dictGet : List (Int × String) → Int → Option String
  | [], _ => none
  | (a, b) :: tl, k => if k = a then some b else dictGet tl k

/-- Python dict insertion `d[k] = v`: an existing key keeps its position
but gets the new value; a new key is appended. -/
def dictInsert (d : List (Int × String)) (k : Int) (v : String) : List (Int × String) :=
  if (dictGet d k).isSome then
    d.map (fun p => if p.1 = k then (k, v) else p)
  else d ++ [(k, v)]

/-- The dict comprehension of detect.py line 36, consuming the generator
`(p.match(line).groups() for line in f.readlines())` line by line: a line
on which `p.match` returns `None` raises `AttributeError` (calling
`.groups()` on `None`); a matching line inserts
`int(num) ↦ text.strip()`, later duplicates overwriting earlier ones. -/
def loadLabelsAux (d : List (Int × String)) : List (List Char) → Except PyError (List (Int × String))
  | [] => Except.ok d
  | line :: rest =>
    match pMatch line with
    | none => Except.error PyError.attributeError
    | some (num, text) =>
      loadLabelsAux (dictInsert d (Int.ofNat (digitsToNat num)) (pyStrip text).asString) rest

/-- `load_labels(path)` of detect.py lines 32-36, with the file presented
as its list of lines. -/
def load_labels (lines : List (List Char)) : Except PyError (List (Int × String)) :=
  loadLabelsAux [] lines

/-- Specification-side view: the stripped label text of the LAST line of
the file whose parsed id equals `id` (`none` when no matching line parses
to that id). -/
def lastParsed : List (List Char) → Int → Option String
  | [], _ => none
  | line :: rest, id =>
    match lastParsed rest id with
    | some v => some v
    | none =>
      match pMatch line with
      | some (num, text) =>
        if Int.ofNat (digitsToNat num) = id then some (pyStrip text).asString else none
      | none => none

/-! ### Per-frame annotation (`main`, detect.py lines 93-156) -/

/-- The parsed CLI options that reach the per-frame pipeline
(detect.py lines 103-106): `--top_k` and `--threshold`. -/
structure Args where
  top_k : Int
  threshold : PyFloat
deriving DecidableEq, Repr

/-- Python `%.0f` formatting: round half to even to an integer; NaN prints
`nan`; a negative value rounding to zero prints `-0`. -/
def formatF0 : PyFloat → String
  | PyFloat.nan => "nan"
  | PyFloat.val q =>
    let f : Int := Rat.floor q
    let frac : ℚ := q - f
    let r : Int :=
      if frac < 1/2 then f
      else if 1/2 < frac then f + 1
      else if Even f then f else f + 1
    if r = 0 && q < 0 then "-0" else toString r

/-- Python float multiplication `100*result.score` (NaN propagates). -/
def pyMul : PyFloat → PyFloat → PyFloat
  | PyFloat.val a, PyFloat.val b => PyFloat.val (a * b)
  | _, _ => PyFloat.nan

/-- `labels.get(result.id, result.id)` of detect.py line 151, passed
through the `%s` conversion: the stored label when the id is present,
otherwise `str` of the numeric id itself. -/
def labelDisplay (labels : List (Int × String)) (id : Int) : String :=
  match dictGet labels id with
  | some t => t
  | none => toString id

/-- The label string of detect.py line 151:
`"%.0f%% %s" % (100*result.score, labels.get(result.id, result.id))`. -/
def renderLabel (labels : List (Int × String)) (r : Object) : String :=
  formatF0 (pyMul (PyFloat.val 100) r.score) ++ "% " ++ labelDisplay labels r.id

/-- The annotation loop of detect.py lines 147-153: one label string is
rendered per decoded result, in order; nothing is dropped and nothing
fails. -/
def annotateResults (labels : List (Int × String)) (results : List Object) : List String :=
  results.map (fun r => renderLabel labels r)

/-- One frame's decoded-and-displayed detections (detect.py lines 141 and
147-153): `results = get_output(interpreter, score_threshold=args.threshold)`
followed by the annotation loop over `results`.  `args` carries `top_k`
exactly as `main` parses it. -/
def displayedDetections (args : Args) (labels : List (Int × String)) (raw : RawOutputs) :
    Except PyError (List Object × List String) :=
  match get_output raw args.threshold with
  | Except.error e => Except.error e
  | Except.ok results => Except.ok (results, annotateResults labels results)

/-! ### Helper lemmas -/

theorem listGet_ok {α : Type} {xs : List α} {i : Nat} {x : α} :
    listGet xs i = Except.ok x ↔ xs.get? i = some x := by
  unfold listGet
  cases h : xs.get? i <;> simp

theorem listGet_err {α : Type} {xs : List α} {i : Nat} {e : PyError}
    (h : listGet xs i = Except.error e) : e = PyError.indexError := by
  unfold listGet at h
  cases hx : xs.get? i with
  | none => simp only [hx] at h; injection h with h2; exact h2.symm
  | some x => simp only [hx] at h; exact absurd h (by simp)

theorem pyInt_err {x : PyFloat} {e : PyError}
    (h : pyInt x = Except.error e) : e = PyError.valueError := by
  cases x with
  | nan => simp [pyInt] at h; exact h.symm
  | val q => simp [pyInt] at h

theorem ge_nan_left (t : PyFloat) : PyFloat.ge PyFloat.nan t = false := by
  cases t <;> rfl

theorem passes_eq {raw : RawOutputs} {t : PyFloat} {i : Nat} {s : PyFloat}
    (h : raw.scores.get? i = some s) : passes raw t i = PyFloat.ge s t := by
  unfold passes
  rw [h]

theorem lowClamped_npMaximum (x : PyFloat) :
    lowClamped (npMaximum (PyFloat.val 0) x) = true := by
  cases x with
  | nan => rfl
  | val q => simp [npMaximum, lowClamped, le_max_left]

theorem highClamped_npMinimum (x : PyFloat) :
    highClamped (npMinimum (PyFloat.val 1) x) = true := by
  cases x with
  | nan => rfl
  | val q => simp [npMinimum, highClamped, min_le_left]

/-- Inversion of a successful `make`: everything it read and the exact
object it built. -/
theorem make_inv {raw : RawOutputs} {i : Nat} {obj : Object}
    (h : make raw i = Except.ok obj) :
    ∃ ymin xmin ymax xmax cid idv s,
      raw.boxes.get? i = some (ymin, xmin, ymax, xmax) ∧
      raw.class_ids.get? i = some cid ∧
      pyInt cid = Except.ok idv ∧
      raw.scores.get? i = some s ∧
      obj = { id := idv, score := s,
              bbox := { xmin := npMaximum (PyFloat.val 0) xmin
                        ymin := npMaximum (PyFloat.val 0) ymin
                        xmax := npMinimum (PyFloat.val 1) xmax
                        ymax := npMinimum (PyFloat.val 1) ymax } } := by
  unfold make at h
  cases hb : listGet raw.boxes i with
  | error e => simp only [hb] at h; exact absurd h (by simp)
  | ok b =>
    obtain ⟨ymin, xmin, ymax, xmax⟩ := b
    simp only [hb] at h
    cases hc : listGet raw.class_ids i with
    | error e => simp only [hc] at h; exact absurd h (by simp)
    | ok cid =>
      simp only [hc] at h
      cases hp : pyInt cid with
      | error e => simp only [hp] at h; exact absurd h (by simp)
      | ok idv =>
        simp only [hp] at h
        cases hs : listGet raw.scores i with
        | error e => simp only [hs] at h; exact absurd h (by simp)
        | ok s =>
          simp only [hs] at h
          refine ⟨ymin, xmin, ymax, xmax, cid, idv, s,
            listGet_ok.mp hb, listGet_ok.mp hc, hp, listGet_ok.mp hs, ?_⟩
          cases h
          rfl

/-- A failing `make` raises `IndexError` or `ValueError` (never anything
else: the code has no other raise site). -/
theorem make_err {raw : RawOutputs} {i : Nat} {e : PyError}
    (h : make raw i = Except.error e) :
    e = PyError.indexError ∨ e = PyError.valueError := by
  unfold make at h
  cases hb : listGet raw.boxes i with
  | error eb => simp only [hb] at h; cases h; exact Or.inl (listGet_err hb)
  | ok b =>
    obtain ⟨ymin, xmin, ymax, xmax⟩ := b
    simp only [hb] at h
    cases hc : listGet raw.class_ids i with
    | error ec => simp only [hc] at h; cases h; exact Or.inl (listGet_err hc)
    | ok cid =>
      simp only [hc] at h
      cases hp : pyInt cid with
      | error ep => simp only [hp] at h; cases h; exact Or.inr (pyInt_err hp)
      | ok idv =>
        simp only [hp] at h
        cases hs : listGet raw.scores i with
        | error es => simp only [hs] at h; cases h; exact Or.inl (listGet_err hs)
        | ok s => simp only [hs] at h; exact absurd h (by simp)

/-- Every member of a successful decode was built by `make` at some
iterated index. -/
theorem aux_mem_make {raw : RawOutputs} {t : PyFloat} {l : List Nat}
    {out : List Object} {obj : Object}
    (h : getOutputAux raw t l = Except.ok out) (hm : obj ∈ out) :
    ∃ i, i ∈ l ∧ make raw i = Except.ok obj := by
  induction l generalizing out with
  | nil =>
    unfold getOutputAux at h
    cases h
    simp at hm
  | cons i rest ih =>
    unfold getOutputAux at h
    cases hs : listGet raw.scores i with
    | error e => simp only [hs] at h; exact absurd h (by simp)
    | ok s =>
      simp only [hs] at h
      by_cases hge : PyFloat.ge s t = true
      · rw [if_pos hge] at h
        cases hmk : make raw i with
        | error e => simp only [hmk] at h; exact absurd h (by simp)
        | ok o =>
          simp only [hmk] at h
          cases hrec : getOutputAux raw t rest with
          | error e => simp only [hrec] at h; exact absurd h (by simp)
          | ok os =>
            simp only [hrec] at h
            cases h
            rcases List.mem_cons.mp hm with hobj | hobj
            · exact ⟨i, List.mem_cons_self i rest, hobj ▸ hmk⟩
            · obtain ⟨j, hj, hmj⟩ := ih hrec hobj
              exact ⟨j, List.mem_cons_of_mem i hj, hmj⟩
      · rw [if_neg hge] at h
        obtain ⟨j, hj, hmj⟩ := ih h hm
        exact ⟨j, List.mem_cons_of_mem i hj, hmj⟩

/-- On a successful decode, every iterated index that passes the threshold
contributes an object built by `make` to the output. -/
theorem aux_pass_mem {raw : RawOutputs} {t : PyFloat} {l : List Nat}
    {out : List Object} {i : Nat} {s : PyFloat}
    (h : getOutputAux raw t l = Except.ok out) (hi : i ∈ l)
    (hs : raw.scores.get? i = some s) (hge : PyFloat.ge s t = true) :
    ∃ obj, make raw i = Except.ok obj ∧ obj ∈ out := by
  induction l generalizing out with
  | nil => simp at hi
  | cons j rest ih =>
    unfold getOutputAux at h
    cases hsj : listGet raw.scores j with
    | error e => simp only [hsj] at h; exact absurd h (by simp)
    | ok sj =>
      simp only [hsj] at h
      by_cases hgej : PyFloat.ge sj t = true
      · rw [if_pos hgej] at h
        cases hmk : make raw j with
        | error e => simp only [hmk] at h; exact absurd h (by simp)
        | ok o =>
          simp only [hmk] at h
          cases hrec : getOutputAux raw t rest with
          | error e => simp only [hrec] at h; exact absurd h (by simp)
          | ok os =>
            simp only [hrec] at h
            cases h
            rcases List.mem_cons.mp hi with hij | hij
            · subst hij
              exact ⟨o, hmk, List.mem_cons_self o os⟩
            · obtain ⟨obj, hobj, hmem⟩ := ih hrec hij
              exact ⟨obj, hobj, List.mem_cons_of_mem o hmem⟩
      · rw [if_neg hgej] at h
        rcases List.mem_cons.mp hi with hij | hij
        · subst hij
          rw [listGet_ok.mpr hs] at hsj
          cases hsj
          exact absurd hge hgej
        · exact ih h hij

/-- A successful decode is exactly `make` mapped over the passing indices,
in order. -/
theorem aux_filter {raw : RawOutputs} {t : PyFloat} {l : List Nat}
    {out : List Object}
    (h : getOutputAux raw t l = Except.ok out) :
    makeAll raw (l.filter (passes raw t)) = some out := by
  induction l generalizing out with
  | nil =>
    unfold getOutputAux at h
    cases h
    rfl
  | cons i rest ih =>
    unfold getOutputAux at h
    cases hs : listGet raw.scores i with
    | error e => simp only [hs] at h; exact absurd h (by simp)
    | ok s =>
      simp only [hs] at h
      have hp : passes raw t i = PyFloat.ge s t := passes_eq (listGet_ok.mp hs)
      by_cases hge : PyFloat.ge s t = true
      · rw [if_pos hge] at h
        cases hmk : make raw i with
        | error e => simp only [hmk] at h; exact absurd h (by simp)
        | ok o =>
          simp only [hmk] at h
          cases hrec : getOutputAux raw t rest with
          | error e => simp only [hrec] at h; exact absurd h (by simp)
          | ok os =>
            simp only [hrec] at h
            cases h
            rw [List.filter_cons_of_pos (hp.trans hge)]
            unfold makeAll
            rw [hmk, ih hrec]
      · rw [if_neg hge] at h
        rw [List.filter_cons_of_neg (by rw [hp]; exact Bool.not_eq_true _ ▸ hge)]
        exact ih h

/-- A failing decode raises `IndexError` or `ValueError`, the only
exceptions the comprehension can produce; in particular never the
specification's `MalformedOutput`. -/
theorem aux_err {raw : RawOutputs} {t : PyFloat} {l : List Nat} {e : PyError}
    (h : getOutputAux raw t l = Except.error e) :
    e = PyError.indexError ∨ e = PyError.valueError := by
  induction l generalizing e with
  | nil =>
    unfold getOutputAux at h
    cases h
  | cons i rest ih =>
    unfold getOutputAux at h
    cases hs : listGet raw.scores i with
    | error es =>
      simp only [hs] at h
      cases h
      exact Or.inl (listGet_err hs)
    | ok s =>
      simp only [hs] at h
      by_cases hge : PyFloat.ge s t = true
      · rw [if_pos hge] at h
        cases hmk : make raw i with
        | error em =>
          simp only [hmk] at h
          cases h
          exact make_err hmk
        | ok o =>
          simp only [hmk] at h
          cases hrec : getOutputAux raw t rest with
          | error er =>
            simp only [hrec] at h
            cases h
            exact ih hrec
          | ok os => simp only [hrec] at h; exact absurd h (by simp)
      · rw [if_neg hge] at h
        exact ih h

/-- If the iterated index list reaches past the end of the scores tensor,
the comprehension raises (it cannot return a list). -/
theorem aux_oob {raw : RawOutputs} {t : PyFloat} {l : List Nat}
    (h : ∃ i, i ∈ l ∧ raw.scores.length ≤ i) :
    ∃ e, getOutputAux raw t l = Except.error e := by
  induction l with
  | nil =>
    obtain ⟨i, hi, _⟩ := h
    simp at hi
  | cons j rest ih =>
    obtain ⟨i, hi, hlen⟩ := h
    cases hs : listGet raw.scores j with
    | error e =>
      refine ⟨e, ?_⟩
      unfold getOutputAux
      simp only [hs]
    | ok s =>
      have hj : j < raw.scores.length := by
        rcases List.get?_eq_some.mp (listGet_ok.mp hs) with ⟨hlt, _⟩
        exact hlt
      have hirest : i ∈ rest := by
        rcases List.mem_cons.mp hi with hij | hij
        · subst hij
          exact absurd hj (Nat.not_lt.mpr hlen)
        · exact hij
      obtain ⟨e, he⟩ := ih ⟨i, hirest, hlen⟩
      by_cases hge : PyFloat.ge s t = true
      · cases hmk : make raw j with
        | error em =>
          refine ⟨em, ?_⟩
          unfold getOutputAux
          simp only [hs, if_pos hge, hmk]
        | ok o =>
          refine ⟨e, ?_⟩
          unfold getOutputAux
          simp only [hs, if_pos hge, hmk, he]
      · refine ⟨e, ?_⟩
        unfold getOutputAux
        simp only [hs, if_neg hge]
        exact he

/-- Positional content of `makeAll`: same length, and each position holds
the `make`-image of the index at that position. -/
theorem makeAll_pos {raw : RawOutputs} {l : List Nat} {out : List Object}
    (h : makeAll raw l = some out) :
    out.length = l.length ∧
      ∀ p i, l.get? p = some i →
        ∃ obj, make raw i = Except.ok obj ∧ out.get? p = some obj := by
  induction l generalizing out with
  | nil =>
    unfold makeAll at h
    cases h
    exact ⟨rfl, by intro p i hp; simp at hp⟩
  | cons j rest ih =>
    unfold makeAll at h
    cases hmk : make raw j with
    | error e => rw [hmk] at h; simp at h
    | ok o =>
      rw [hmk] at h
      cases hrec : makeAll raw rest with
      | none => rw [hrec] at h; simp at h
      | some os =>
        rw [hrec] at h
        cases h
        obtain ⟨hlen, hpos⟩ := ih hrec
        refine ⟨by simp [hlen], ?_⟩
        intro p i hp
        cases p with
        | zero =>
          cases hp
          exact ⟨o, hmk, rfl⟩
        | succ p =>
          exact hpos p i hp

/-- Lookup after the in-place overwrite map used by `dictInsert` on an
existing key. -/
theorem dictGet_cons (a : Int) (b : String) (tl : List (Int × String)) (k : Int) :
    dictGet ((a, b) :: tl) k = if k = a then some b else dictGet tl k := rfl

theorem dictGet_overwriteMap (d : List (Int × String)) (k : Int) (v : String) (k2 : Int) :
    dictGet (d.map (fun p => if p.1 = k then (k, v) else p)) k2 =
      if k2 = k then (dictGet d k).map (fun _ => v) else dictGet d k2 := by
  induction d with
  | nil => by_cases hk : k2 = k <;> simp [dictGet, hk]
  | cons hd tl ih =>
    obtain ⟨a, b⟩ := hd
    rw [List.map_cons]
    have hhead : (if (a, b).1 = k then (k, v) else (a, b))
        = if a = k then (k, v) else (a, b) := rfl
    rw [hhead]
    by_cases ha : a = k
    · rw [if_pos ha]
      by_cases hk : k2 = k
      · rw [dictGet_cons, if_pos hk, if_pos hk, dictGet_cons, if_pos ha.symm]
        rfl
      · rw [dictGet_cons, if_neg hk, ih, if_neg hk, if_neg hk, dictGet_cons,
          if_neg (fun h => hk (h.trans ha))]
    · rw [if_neg ha]
      by_cases hk : k2 = a
      · have hkk : ¬ k2 = k := fun h => ha (hk.symm.trans h)
        rw [dictGet_cons, if_pos hk, if_neg hkk, dictGet_cons, if_pos hk]
      · rw [dictGet_cons, if_neg hk, ih, dictGet_cons,
          if_neg (fun h : k = a => ha h.symm), dictGet_cons, if_neg hk]

/-- Lookup after appending a fresh key. -/
theorem dictGet_append_single (d : List (Int × String)) (k : Int) (v : String) (k2 : Int)
    (hnone : dictGet d k = none) :
    dictGet (d ++ [(k, v)]) k2 = if k2 = k then some v else dictGet d k2 := by
  induction d with
  | nil => by_cases hk : k2 = k <;> simp [dictGet, hk]
  | cons hd tl ih =>
    obtain ⟨a, b⟩ := hd
    have hka : ¬ k = a := by
      intro hkk
      rw [dictGet_cons, if_pos hkk] at hnone
      cases hnone
    have htl : dictGet tl k = none := by
      rw [dictGet_cons, if_neg hka] at hnone
      exact hnone
    rw [List.cons_append]
    by_cases hk : k2 = a
    · have hkk : ¬ k2 = k := fun hh => hka (hh.symm.trans hk)
      rw [dictGet_cons, if_pos hk, if_neg hkk, dictGet_cons, if_pos hk]
    · rw [dictGet_cons, if_neg hk, ih htl, dictGet_cons, if_neg hk]

/-- Lookup in a Python dict after `d[k] = v`: key `k` now maps to `v`,
every other key is unchanged. -/
theorem dictInsert_lookup (d : List (Int × String)) (k : Int) (v : String) (k2 : Int) :
    dictGet (dictInsert d k v) k2 = if k2 = k then some v else dictGet d k2 := by
  unfold dictInsert
  by_cases hfound : (dictGet d k).isSome
  · rw [if_pos hfound, dictGet_overwriteMap]
    by_cases hk : k2 = k
    · obtain ⟨b, hb⟩ := Option.isSome_iff_exists.mp hfound
      simp [hk, hb]
    · simp [hk]
  · rw [if_neg hfound]
    exact dictGet_append_single d k v k2 (Option.not_isSome_iff_eq_none.mp hfound)

/-- Unfolding of `lastParsed` at a cons cell. -/
theorem lastParsed_cons (line : List Char) (rest : List (List Char)) (id : Int) :
    lastParsed (line :: rest) id =
      match lastParsed rest id with
      | some v => some v
      | none =>
        match pMatch line with
        | some (num, text) =>
          if Int.ofNat (digitsToNat num) = id then some (pyStrip text).asString else none
        | none => none := rfl

/-- `loadLabelsAux` fails with `AttributeError` exactly when some line does
not match the pattern. -/
theorem loadLabelsAux_err (d : List (Int × String)) (lines : List (List Char)) :
    loadLabelsAux d lines = Except.error PyError.attributeError ↔
      ∃ l, l ∈ lines ∧ pMatch l = none := by
  induction lines generalizing d with
  | nil =>
    constructor
    · intro h
      exact absurd h (by simp [loadLabelsAux])
    · rintro ⟨l, hl, _⟩
      simp at hl
  | cons line rest ih =>
    cases hm : pMatch line with
    | none =>
      constructor
      · intro _
        exact ⟨line, List.mem_cons_self line rest, hm⟩
      · intro _
        unfold loadLabelsAux
        simp only [hm]
    | some g =>
      obtain ⟨num, text⟩ := g
      have hstep : loadLabelsAux d (line :: rest) =
          loadLabelsAux (dictInsert d (Int.ofNat (digitsToNat num)) (pyStrip text).asString) rest := by
        unfold loadLabelsAux
        simp only [hm]
        cases rest with
        | nil => rfl
        | cons l2 r2 => rfl
      rw [hstep, ih]
      constructor
      · rintro ⟨l, hl, hlm⟩
        exact ⟨l, List.mem_cons_of_mem line hl, hlm⟩
      · rintro ⟨l, hl, hlm⟩
        rcases List.mem_cons.mp hl with hll | hll
        · subst hll
          rw [hm] at hlm
          cases hlm
        · exact ⟨l, hll, hlm⟩

/-- Every failure of `loadLabelsAux` is the `AttributeError` raised by
calling `.groups()` on a failed match. -/
theorem loadLabelsAux_err_only {d : List (Int × String)} {lines : List (List Char)}
    {e : PyError} (h : loadLabelsAux d lines = Except.error e) :
    e = PyError.attributeError := by
  induction lines generalizing d with
  | nil =>
    unfold loadLabelsAux at h
    exact absurd h (by simp)
  | cons line rest ih =>
    unfold loadLabelsAux at h
    cases hm : pMatch line with
    | none =>
      simp only [hm] at h
      cases h
      rfl
    | some g =>
      obtain ⟨num, text⟩ := g
      simp only [hm] at h
      exact ih h

/-- When every line matches, `loadLabelsAux` succeeds. -/
theorem loadLabelsAux_ok (d : List (Int × String)) (lines : List (List Char))
    (h : ∀ l, l ∈ lines → (pMatch l).isSome) :
    ∃ d2, loadLabelsAux d lines = Except.ok d2 := by
  induction lines generalizing d with
  | nil => exact ⟨d, rfl⟩
  | cons line rest ih =>
    cases hm : pMatch line with
    | none =>
      have := h line (List.mem_cons_self line rest)
      rw [hm] at this
      cases this
    | some g =>
      obtain ⟨num, text⟩ := g
      obtain ⟨d2, hd2⟩ :=
        ih (dictInsert d (Int.ofNat (digitsToNat num)) (pyStrip text).asString)
          (fun l hl => h l (List.mem_cons_of_mem line hl))
      refine ⟨d2, ?_⟩
      unfold loadLabelsAux
      simp only [hm]
      exact hd2

/-- The dict built by `loadLabelsAux` maps each id to the stripped text of
the last line parsing to that id, falling back to the starting dict. -/
theorem loadLabelsAux_lookup {d d2 : List (Int × String)} {lines : List (List Char)}
    (h : loadLabelsAux d lines = Except.ok d2) (id : Int) :
    dictGet d2 id =
      match lastParsed lines id with
      | some w => some w
      | none => dictGet d id := by
  induction lines generalizing d with
  | nil =>
    unfold loadLabelsAux at h
    cases h
    rfl
  | cons line rest ih =>
    unfold loadLabelsAux at h
    cases hm : pMatch line with
    | none =>
      simp only [hm] at h
      exact absurd h (by simp)
    | some g =>
      obtain ⟨num, text⟩ := g
      simp only [hm] at h
      rw [ih h, lastParsed_cons]
      cases hlast : lastParsed rest id with
      | some w => rfl
      | none =>
        simp only [hm]
        rw [dictInsert_lookup]
        by_cases hk : Int.ofNat (digitsToNat num) = id
        · rw [if_pos hk.symm, if_pos hk]
        · rw [if_neg (fun hkk => hk hkk.symm), if_neg hk]

/-! ### Concrete inputs used by counterexamples and witnesses -/

/-- One detection whose raw `xmin` is 2 (outside the unit interval), with a
passing score. -/
def rawC1 : RawOutputs :=
  { boxes := [(PyFloat.val 0, PyFloat.val 2, PyFloat.val 1, PyFloat.val 1)]
    class_ids := [PyFloat.val 0]
    scores := [PyFloat.val 1]
    count := PyFloat.val 1 }

/-- A single passing detection whose raw box sticks out of the unit square
on both unclamped sides. -/
def rawW : RawOutputs :=
  { boxes := [(PyFloat.val 0, PyFloat.val 2, PyFloat.val 1, PyFloat.val 3)]
    class_ids := [PyFloat.val 1]
    scores := [PyFloat.val 1]
    count := PyFloat.val 1 }

/-- The object `get_output` builds from `rawW` at threshold 0. -/
def objW : Object :=
  { id := 1
    score := PyFloat.val 1
    bbox := { xmin := PyFloat.val 2, ymin := PyFloat.val 0
              xmax := PyFloat.val 1, ymax := PyFloat.val 1 } }

/-- Capacity-1 tensors with a reported count of 2. -/
def rawC3 : RawOutputs :=
  { boxes := [(PyFloat.val 0, PyFloat.val 0, PyFloat.val 1, PyFloat.val 1)]
    class_ids := [PyFloat.val 0]
    scores := [PyFloat.val 1]
    count := PyFloat.val 2 }

/-- A single detection whose score is NaN. -/
def rawC5 : RawOutputs :=
  { boxes := [(PyFloat.val 0, PyFloat.val 0, PyFloat.val 1, PyFloat.val 1)]
    class_ids := [PyFloat.val 0]
    scores := [PyFloat.nan]
    count := PyFloat.val 1 }

/-! ### Claim C1 -/

/-- C1 (counterexample): the claim that every emitted bbox coordinate lies
within [0,1] regardless of the raw box values is false: with a raw box
whose `xmin` is 2 and a passing score, `get_output` emits the object with
`xmin = 2`, which is not in the unit interval (the code clamps each min
edge only from below and each max edge only from above). -/
theorem C1_counterexample :
    get_output rawC1 (PyFloat.val 0) =
      Except.ok [{ id := 0, score := PyFloat.val 1,
                   bbox := { xmin := PyFloat.val 2, ymin := PyFloat.val 0,
                             xmax := PyFloat.val 1, ymax := PyFloat.val 1 } }] ∧
      inUnit (PyFloat.val 2) = false :=
  ⟨rfl, rfl⟩

/-- C1 (amended): every `DetectedObject` emitted by `get_output` has its
bbox clamped one-sidedly per edge: `xmin` and `ymin` are at least 0 and
`xmax` and `ymax` are at most 1, except that a NaN raw coordinate is
propagated as NaN; min edges are not clamped from above nor max edges
from below, so coordinates need not lie within [0,1]. -/
theorem C1_one_sided_clamp (raw : RawOutputs) (t : PyFloat) (out : List Object)
    (obj : Object) (h : get_output raw t = Except.ok out) (hm : obj ∈ out) :
    lowClamped obj.bbox.xmin = true ∧ lowClamped obj.bbox.ymin = true ∧
      highClamped obj.bbox.xmax = true ∧ highClamped obj.bbox.ymax = true := by
  unfold get_output at h
  cases hc : pyInt raw.count with
  | error e => simp only [hc] at h; exact absurd h (by simp)
  | ok c =>
    simp only [hc] at h
    obtain ⟨i, _, hmk⟩ := aux_mem_make h hm
    obtain ⟨ym, xm, yM, xM, cid, idv, s, _, _, _, _, hobj⟩ := make_inv hmk
    subst hobj
    exact ⟨lowClamped_npMaximum xm, lowClamped_npMaximum ym,
      highClamped_npMinimum xM, highClamped_npMinimum yM⟩

/-- C1 (witness): the amended theorem applied to a concrete decode. -/
theorem C1_one_sided_clamp_witness :
    lowClamped objW.bbox.xmin = true ∧ lowClamped objW.bbox.ymin = true ∧
      highClamped objW.bbox.xmax = true ∧ highClamped objW.bbox.ymax = true :=
  C1_one_sided_clamp rawW (PyFloat.val 0) [objW] objW rfl (List.mem_cons_self objW [])

/-! ### Claim C2 -/

/-- C2: for every index `i` below the decoded count whose score passes the
threshold, the decoder's output (when it returns) contains an object whose
bbox is clamped independently per edge from the raw box at `i`:
`xmin` becomes `max(0, xmin)`, `ymin` becomes `max(0, ymin)`,
`xmax` becomes `min(1, xmax)`, `ymax` becomes `min(1, ymax)`; min and max
edges are never swapped (the raw `xmin` feeds only the emitted `xmin`, and
so on), and the object's score is `scores[i]` unchanged. -/
theorem C2_per_edge_clamp (raw : RawOutputs) (t : PyFloat) (out : List Object)
    (c : Int) (i : Nat) (s ymin xmin ymax xmax : PyFloat)
    (hc : pyInt raw.count = Except.ok c)
    (h : get_output raw t = Except.ok out)
    (hi : i < c.toNat)
    (hs : raw.scores.get? i = some s)
    (hge : PyFloat.ge s t = true)
    (hb : raw.boxes.get? i = some (ymin, xmin, ymax, xmax)) :
    ∃ obj, obj ∈ out ∧ obj.score = s ∧
      obj.bbox = { xmin := npMaximum (PyFloat.val 0) xmin
                   ymin := npMaximum (PyFloat.val 0) ymin
                   xmax := npMinimum (PyFloat.val 1) xmax
                   ymax := npMinimum (PyFloat.val 1) ymax } := by
  unfold get_output at h
  simp only [hc] at h
  obtain ⟨obj, hmk, hmem⟩ := aux_pass_mem h (List.mem_range.mpr hi) hs hge
  obtain ⟨ym2, xm2, yM2, xM2, cid, idv, s2, hb2, hc2, hp2, hs2, hobj⟩ := make_inv hmk
  rw [hb] at hb2
  have hbeq := Option.some.inj hb2
  simp only [Prod.mk.injEq] at hbeq
  obtain ⟨e1, e2, e3, e4⟩ := hbeq
  subst e1
  subst e2
  subst e3
  subst e4
  rw [hs] at hs2
  have hseq := Option.some.inj hs2
  subst hseq
  subst hobj
  exact ⟨_, hmem, rfl, rfl⟩

/-- C2 (witness): the clamping equation realised on a concrete decode. -/
theorem C2_per_edge_clamp_witness :
    ∃ obj, obj ∈ [objW] ∧ obj.score = PyFloat.val 1 ∧
      obj.bbox = { xmin := npMaximum (PyFloat.val 0) (PyFloat.val 2)
                   ymin := npMaximum (PyFloat.val 0) (PyFloat.val 0)
                   xmax := npMinimum (PyFloat.val 1) (PyFloat.val 3)
                   ymax := npMinimum (PyFloat.val 1) (PyFloat.val 1) } :=
  C2_per_edge_clamp rawW (PyFloat.val 0) [objW] 1 0
    (PyFloat.val 1) (PyFloat.val 0) (PyFloat.val 2)
    (PyFloat.val 1) (PyFloat.val 3)
    rfl rfl (by decide) rfl (by decide) rfl

/-! ### Claim C3 -/

/-- C3 (counterexample): with capacity-1 tensors and a reported count of 2,
`get_output` fails with `IndexError` (the numpy out-of-range read at index
1), not with the specification's `MalformedOutput`: the code has no such
defensive check. -/
theorem C3_counterexample :
    get_output rawC3 (PyFloat.val 0) = Except.error PyError.indexError ∧
      PyError.indexError ≠ PyError.malformedOutput :=
  ⟨rfl, by decide⟩

/-- C3 (amended): when the reported count exceeds the common capacity `n`
of the boxes/classIds/scores tensors, the decoder raises — so it emits
zero objects from that call — but the error is the `IndexError` (or, for a
NaN class id read earlier, `ValueError`) of an unchecked read, never a
`MalformedOutput`, which the code does not implement. -/
theorem C3_count_over_capacity (raw : RawOutputs) (t : PyFloat) (c : Int) (n : Nat)
    (_hlb : raw.boxes.length = n) (_hlc : raw.class_ids.length = n)
    (hls : raw.scores.length = n)
    (hc : pyInt raw.count = Except.ok c) (hover : (n : Int) < c) :
    ∃ e, get_output raw t = Except.error e ∧ e ≠ PyError.malformedOutput := by
  have hn : n < c.toNat := Int.lt_toNat.mpr hover
  obtain ⟨e, he⟩ := @aux_oob raw t (List.range c.toNat)
    ⟨n, List.mem_range.mpr hn, le_of_eq hls⟩
  refine ⟨e, ?_, ?_⟩
  · unfold get_output
    simp only [hc]
    exact he
  · rcases aux_err he with h1 | h1 <;> subst h1 <;> simp

/-- C3 (witness): the amended theorem applied to the concrete overflow. -/
theorem C3_count_over_capacity_witness :
    ∃ e, get_output rawC3 (PyFloat.val 0) = Except.error e ∧
      e ≠ PyError.malformedOutput :=
  C3_count_over_capacity rawC3 (PyFloat.val 0) 2 1
    rfl rfl rfl rfl (by decide)

/-! ### Claim C5 -/

/-- C5: a detection whose score is NaN is excluded for any finite
threshold, and no error is raised for it: iterating its index is
indistinguishable from skipping it (the `>=` comparison with NaN is false,
so the comprehension silently drops it), and its index is never among the
selected indices. -/
theorem C5_nan_score_dropped (raw : RawOutputs) (t : PyFloat) (i : Nat) (l : List Nat)
    (_ht : t ≠ PyFloat.nan)
    (hs : raw.scores.get? i = some PyFloat.nan) :
    getOutputAux raw t (i :: l) = getOutputAux raw t l ∧
      ∀ n, i ∉ selectedIdxs raw t n := by
  constructor
  · unfold getOutputAux
    simp only [listGet_ok.mpr hs, ge_nan_left]
    simp only [Bool.false_eq_true, if_false]
    cases l with
    | nil => rfl
    | cons a r => rfl
  · intro n
    unfold selectedIdxs
    intro hmem
    have hp := (List.mem_filter.mp hmem).2
    unfold passes at hp
    simp only [hs, ge_nan_left] at hp
    exact Bool.noConfusion hp

/-- C5 (witness): the NaN-score theorem applied to a concrete output. -/
theorem C5_nan_score_dropped_witness :
    getOutputAux rawC5 (PyFloat.val 0) (0 :: []) =
        getOutputAux rawC5 (PyFloat.val 0) [] ∧
      ∀ n, 0 ∉ selectedIdxs rawC5 (PyFloat.val 0) n :=
  C5_nan_score_dropped rawC5 (PyFloat.val 0) 0 [] (by decide) rfl

/-! ### Claim C7 -/

/-- C7: two runs of the per-frame pipeline that differ only in the parsed
`top_k` option produce identical decoded-and-displayed detections:
`top_k` never reaches the decoder or the annotation loop; only the score
threshold filters the output. -/
theorem C7_top_k_unused (k1 k2 : Int) (t : PyFloat)
    (labels : List (Int × String)) (raw : RawOutputs) :
    displayedDetections { top_k := k1, threshold := t } labels raw =
      displayedDetections { top_k := k2, threshold := t } labels raw := rfl

/-! ### Claim C4 -/

/-- C4: on a successful decode, for every index `i` below the count with
score `s`, a detection for index `i` appears in the output — at the
position its index occupies among the selected indices, carrying exactly
the object `make` builds for `i` — if and only if `s >= threshold`; the
boundary case `s == threshold` is included since `>=` is used. -/
theorem C4_threshold_iff (raw : RawOutputs) (t : PyFloat) (out : List Object)
    (c : Int) (i : Nat) (s : PyFloat)
    (hc : pyInt raw.count = Except.ok c)
    (h : get_output raw t = Except.ok out)
    (hi : i < c.toNat)
    (hs : raw.scores.get? i = some s) :
    PyFloat.ge s t = true ↔
      ∃ p obj, (selectedIdxs raw t c.toNat).get? p = some i ∧
        make raw i = Except.ok obj ∧ out.get? p = some obj := by
  unfold get_output at h
  simp only [hc] at h
  have hfilter := aux_filter h
  constructor
  · intro hge
    have hpass : passes raw t i = true := (passes_eq hs).trans hge
    have hmem : i ∈ selectedIdxs raw t c.toNat := by
      unfold selectedIdxs
      exact List.mem_filter.mpr ⟨List.mem_range.mpr hi, hpass⟩
    obtain ⟨p, hp⟩ := List.mem_iff_get.mp hmem
    have hgetp : (selectedIdxs raw t c.toNat).get? p.val = some i := by
      rw [List.get?_eq_get p.isLt, hp]
    obtain ⟨_, hpos⟩ := makeAll_pos hfilter
    obtain ⟨obj, hmk, hout⟩ := hpos p.val i hgetp
    exact ⟨p.val, obj, hgetp, hmk, hout⟩
  · rintro ⟨p, obj, hgetp, _, _⟩
    have hmem : i ∈ selectedIdxs raw t c.toNat := List.get?_mem hgetp
    have hpass := (List.mem_filter.mp hmem).2
    rw [passes_eq hs] at hpass
    exact hpass

/-- C4 (witness): the threshold iff realised on a concrete decode. -/
theorem C4_threshold_iff_witness :
    PyFloat.ge (PyFloat.val 1) (PyFloat.val 0) = true ↔
      ∃ p obj, (selectedIdxs rawW (PyFloat.val 0) (Int.toNat 1)).get? p = some 0 ∧
        make rawW 0 = Except.ok obj ∧ [objW].get? p = some obj :=
  C4_threshold_iff rawW (PyFloat.val 0) [objW] 1 0 (PyFloat.val 1)
    rfl rfl (by decide) rfl

/-! ### Claim C6 -/

/-- C6: the decoder preserves engine-emitted index order: on a successful
decode, for any indices `i < j` below the count whose scores both pass the
threshold, the object decoded from `i` occupies an earlier output position
than the object decoded from `j`; the output is never re-sorted by
score. -/
theorem C6_order_preserved (raw : RawOutputs) (t : PyFloat) (out : List Object)
    (c : Int) (i j : Nat) (si sj : PyFloat)
    (hc : pyInt raw.count = Except.ok c)
    (h : get_output raw t = Except.ok out)
    (hij : i < j) (hj : j < c.toNat)
    (hsi : raw.scores.get? i = some si) (hgei : PyFloat.ge si t = true)
    (hsj : raw.scores.get? j = some sj) (hgej : PyFloat.ge sj t = true) :
    ∃ p q oi oj, p < q ∧
      make raw i = Except.ok oi ∧ out.get? p = some oi ∧
      make raw j = Except.ok oj ∧ out.get? q = some oj := by
  unfold get_output at h
  simp only [hc] at h
  have hfilter := aux_filter h
  obtain ⟨_, hpos⟩ := makeAll_pos hfilter
  have hi : i < c.toNat := hij.trans hj
  have hmi : i ∈ selectedIdxs raw t c.toNat := by
    unfold selectedIdxs
    exact List.mem_filter.mpr ⟨List.mem_range.mpr hi, (passes_eq hsi).trans hgei⟩
  have hmj : j ∈ selectedIdxs raw t c.toNat := by
    unfold selectedIdxs
    exact List.mem_filter.mpr ⟨List.mem_range.mpr hj, (passes_eq hsj).trans hgej⟩
  obtain ⟨p, hp⟩ := List.mem_iff_get.mp hmi
  obtain ⟨q, hq⟩ := List.mem_iff_get.mp hmj
  have hsorted : (selectedIdxs raw t c.toNat).Pairwise (· < ·) := by
    unfold selectedIdxs
    exact List.Pairwise.filter (passes raw t) (List.pairwise_lt_range c.toNat)
  have hpq : p.val < q.val := by
    rcases lt_trichotomy p q with hlt | heq | hgt
    · exact hlt
    · exfalso
      rw [heq, hq] at hp
      omega
    · exfalso
      have hji := List.pairwise_iff_get.mp hsorted q p hgt
      rw [hp, hq] at hji
      omega
  have hgetp : (selectedIdxs raw t c.toNat).get? p.val = some i := by
    rw [List.get?_eq_get p.isLt, hp]
  have hgetq : (selectedIdxs raw t c.toNat).get? q.val = some j := by
    rw [List.get?_eq_get q.isLt, hq]
  obtain ⟨oi, hmki, houti⟩ := hpos p.val i hgetp
  obtain ⟨oj, hmkj, houtj⟩ := hpos q.val j hgetq
  exact ⟨p.val, q.val, oi, oj, hpq, hmki, houti, hmkj, houtj⟩

/-- Two passing detections, in engine order. -/
def rawC6 : RawOutputs :=
  { boxes := [(PyFloat.val 0, PyFloat.val 0, PyFloat.val 1, PyFloat.val 1),
              (PyFloat.val 0, PyFloat.val 0, PyFloat.val 1, PyFloat.val 2)]
    class_ids := [PyFloat.val 1, PyFloat.val 2]
    scores := [PyFloat.val 1, PyFloat.val 2]
    count := PyFloat.val 2 }

/-- The two objects `get_output` builds from `rawC6` at threshold 0. -/
def objC6a : Object :=
  { id := 1
    score := PyFloat.val 1
    bbox := { xmin := PyFloat.val 0, ymin := PyFloat.val 0
              xmax := PyFloat.val 1, ymax := PyFloat.val 1 } }

/-- Second decoded object of `rawC6` (higher score yet later position). -/
def objC6b : Object :=
  { id := 2
    score := PyFloat.val 2
    bbox := { xmin := PyFloat.val 0, ymin := PyFloat.val 0
              xmax := PyFloat.val 1, ymax := PyFloat.val 1 } }

/-- C6 (witness): order preservation realised on a concrete decode with
two passing detections. -/
theorem C6_order_preserved_witness :
    ∃ p q oi oj, p < q ∧
      make rawC6 0 = Except.ok oi ∧ [objC6a, objC6b].get? p = some oi ∧
      make rawC6 1 = Except.ok oj ∧ [objC6a, objC6b].get? q = some oj :=
  C6_order_preserved rawC6 (PyFloat.val 0) [objC6a, objC6b] 2 0 1
    (PyFloat.val 1) (PyFloat.val 2)
    rfl rfl (by decide) (by decide) rfl rfl rfl rfl

/-! ### Claim C8 -/

/-- C8 (counterexample): on the file consisting of the single malformed
line `abc`, `load_labels` fails with the payload-free `AttributeError` of
calling `.groups()` on a failed match, not with a `ParseError` naming the
offending line. -/
theorem C8_counterexample :
    load_labels [("abc").toList] = Except.error PyError.attributeError ∧
      (Except.error PyError.attributeError :
          Except PyError (List (Int × String))) ≠
        Except.error (PyError.parseError "abc") := by
  constructor
  · rfl
  · intro h
    cases h

/-- C8 (amended): `load_labels` fails — with `AttributeError`, which
carries no information about the offending line — exactly when some line
does not match the pattern; a malformed line is never silently ignored
(the converse direction: no match failure, no such error). -/
theorem C8_attribute_error_iff (lines : List (List Char)) :
    load_labels lines = Except.error PyError.attributeError ↔
      ∃ l, l ∈ lines ∧ pMatch l = none :=
  loadLabelsAux_err [] lines

/-! ### Claim C9 -/

/-- C9: a decoded detection whose class id is absent from the label
mapping renders with the stringified numeric id as the label text, and the
annotation loop never fails a frame: every result is rendered (one label
per result, and this result's label is among them). -/
theorem C9_unknown_id_fallback (labels : List (Int × String)) (results : List Object)
    (r : Object) (hmem : r ∈ results) (hid : dictGet labels r.id = none) :
    renderLabel labels r =
        formatF0 (pyMul (PyFloat.val 100) r.score) ++ "% " ++ toString r.id ∧
      (annotateResults labels results).length = results.length ∧
      renderLabel labels r ∈ annotateResults labels results := by
  refine ⟨?_, by simp [annotateResults], ?_⟩
  · unfold renderLabel labelDisplay
    rw [hid]
  · unfold annotateResults
    exact List.mem_map.mpr ⟨r, hmem, rfl⟩

/-- C9 (witness): the fallback label realised for a concrete unknown id. -/
theorem C9_unknown_id_fallback_witness :
    renderLabel [(1, "cat")] objC6b =
        formatF0 (pyMul (PyFloat.val 100) objC6b.score) ++ "% " ++
          toString objC6b.id ∧
      (annotateResults [(1, "cat")] [objC6b]).length = [objC6b].length ∧
      renderLabel [(1, "cat")] objC6b ∈ annotateResults [(1, "cat")] [objC6b] :=
  C9_unknown_id_fallback [(1, "cat")] [objC6b] objC6b
    (List.mem_cons_self objC6b []) rfl

/-! ### Claim C10 -/

/-- C10: on a label file whose lines all match the pattern — in particular
one in which several lines carry the same integer id — `load_labels`
succeeds with no duplicate-id error, and the returned mapping binds every
id to the stripped label text of the LAST line carrying it: later entries
overwrite earlier ones. -/
theorem C10_duplicate_ids_last_wins (lines : List (List Char))
    (hall : ∀ l, l ∈ lines → (pMatch l).isSome) :
    ∃ d, load_labels lines = Except.ok d ∧
      ∀ id, dictGet d id = lastParsed lines id := by
  obtain ⟨d, hd⟩ := loadLabelsAux_ok [] lines hall
  refine ⟨d, hd, ?_⟩
  intro id
  rw [loadLabelsAux_lookup hd id]
  cases lastParsed lines id with
  | some w => rfl
  | none => rfl

/-- C10 (witness): the last-wins lookup realised on a concrete file with a
duplicated id. -/
theorem C10_duplicate_ids_last_wins_witness :
    ∃ d, load_labels [("1 cat" ++ "\n").toList, ("1 dog" ++ "\n").toList] = Except.ok d ∧
      ∀ id, dictGet d id =
        lastParsed [("1 cat" ++ "\n").toList, ("1 dog" ++ "\n").toList] id :=
  C10_duplicate_ids_last_wins
    [("1 cat" ++ "\n").toList, ("1 dog" ++ "\n").toList] (by decide)

end Detect
